import Mathlib

/-!
Verification of the chunked storage and reassembly engine of the infinidrive
repository, as a shallow embedding of the TypeScript source.

Bytes are modelled as `List Nat` (one `Nat` per byte, values unconstrained —
none of the verified properties depend on the 0..255 bound).  Database tables
are modelled as Lean lists of records in insertion order; SQL queries are
modelled as the corresponding filters/lookups.  Asynchronous Telegram calls
are modelled by oracle functions passed in as arguments, so that every
definition is executable.
-/

/-! ## Chunking (backend/src/routes/files.ts and the v1 upload route)

`CHUNK_SIZE = 20 * 1024 * 1024` in both files.  The v1 upload route splits the
decoded buffer with
`for i in 0..chunk_count: buffer.slice(i*CHUNK_SIZE, min(i*CHUNK_SIZE+CHUNK_SIZE, file_size))`
where `chunk_count = Math.ceil(file_size / CHUNK_SIZE)`; the download handler
concatenates the fetched chunk buffers in `chunk_index` order. -/

def CHUNK_SIZE : Nat := 20 * 1024 * 1024

/-- The source computes `chunk_count = Math.ceil(file_size / CHUNK_SIZE)`; for
natural `len` and positive `C`, `Math.ceil(len / C) = (len + C - 1) / C` in
integer arithmetic, which is the form used here. -/
def chunkCount (len C : Nat) : Nat := (len + C - 1) / C

/-- One chunk of the v1 upload split loop:
`buffer.slice(i*C, Math.min(i*C + C, file_size))`, with JS `slice(a, b)`
being drop `a` then take `b - a`. -/
def chunkSlice (P : List Nat) (C i : Nat) : List Nat :=
  (P.drop (i * C)).take (min (i * C + C) P.length - i * C)

/-- The full split performed by the v1 upload loop (`src/unnamed/part_006`,
lines 101-125): chunk `i` for each `i < chunk_count`. -/
def chunkSplit (P : List Nat) (C : Nat) : List (List Nat) :=
  (List.range (chunkCount P.length C)).map (chunkSlice P C)

/-- The download handler's reassembly (files.ts lines 663-679): the chunk
buffers, already ordered by `chunk_index`, are copied one after another into a
single output buffer — i.e. list concatenation. -/
def assemble (chunks : List (List Nat)) : List Nat := chunks.flatten

/-! ## Range resolution (files.ts lines 752-847, stream handler range branch)

A stored chunk as seen by the range branch: `chunk_size` comes from the
`chunks` table row, `bytes` is what `downloadFile` returns for the chunk's
`telegram_file_id`.  The range branch walks the chunk rows accumulating a
running offset, collects the chunks whose interval intersects the requested
range together with local slice bounds, downloads each of them, slices, and
concatenates. -/

structure StChunk where
  size : Nat
  bytes : List Nat
deriving DecidableEq, Repr

/-- One entry of the `neededChunks` array built by the stream range branch. -/
structure Needed where
  chunk : StChunk
  extractStart : Nat
  extractEnd : Nat
  globalStart : Nat
  globalEnd : Nat
deriving DecidableEq, Repr

/-- The selection loop (files.ts lines 765-791).  `chunkStart` is the running
offset; a chunk is selected iff `chunkEnd > start && chunkStart <= end`;
`extractStart = Math.max(0, start - chunkStart)` (natural subtraction already
truncates at 0) and `extractEnd = Math.min(chunk_size, end - chunkStart + 1)`. -/
def findNeeded : List StChunk → Nat → Nat → Nat → List Needed
  | [], _, _, _ => []
  | c :: rest, off, s, e =>
    (if off + c.size > s ∧ off ≤ e then
      [⟨c, s - off, min c.size (e - off + 1), off, off + c.size⟩]
    else []) ++ findNeeded rest (off + c.size) s e

/-- The extraction step (files.ts lines 795-800):
`chunkArray.slice(extractStart, extractEnd)`. -/
def rangeExtract (n : Needed) : List Nat :=
  (n.chunk.bytes.drop n.extractStart).take (n.extractEnd - n.extractStart)

/-- The assembled body of a 206 response (files.ts lines 823-830): the
extracted parts concatenated in chunk order. -/
def rangeBody (chunks : List StChunk) (s e : Nat) : List Nat :=
  ((findNeeded chunks 0 s e).map rangeExtract).flatten

/-! ## Range header parsing (files.ts lines 926-936)

`parseRange` matches the unanchored regex `/bytes=(\d+)-(\d*)/`.  Since `\d+`
is greedy and backtracking it only ever exposes another digit (never the
required `-`), the regex matches at a position iff the literal `bytes=` is
followed there by a maximal non-empty digit run and then immediately by `-`;
the scan tries each start position left to right. -/

/-- JS `parseInt` on a non-empty digit string. -/
def natOfDigits (l : List Char) : Nat :=
  l.foldl (fun acc c => acc * 10 + (c.toNat - 48)) 0

/-- Attempt to match `bytes=(\d+)-(\d*)` at the head of `l`; returns the two
captures (the second is `none` when empty, mirroring the falsiness test
`match[2] ?`). -/
def matchBytesAt (l : List Char) : Option (Nat × Option Nat) :=
  if l.take 6 = "bytes=".toList then
    let rest := l.drop 6
    let d1 := rest.takeWhile Char.isDigit
    match rest.dropWhile Char.isDigit with
    | '-' :: r2 =>
        if d1.isEmpty then none
        else
          let d2 := r2.takeWhile Char.isDigit
          some (natOfDigits d1, if d2.isEmpty then none else some (natOfDigits d2))
    | _ => none
  else none

/-- Left-to-right scan of `String.match` for an unanchored pattern. -/
def jsMatchRangeAux : List Char → Option (Nat × Option Nat)
  | [] => none
  | c :: rest =>
    match matchBytesAt (c :: rest) with
    | some r => some r
    | none => jsMatchRangeAux rest

/-- `range.match(/bytes=(\d+)-(\d*)/)`, reduced to its two captures. -/
def jsMatchRange (s : String) : Option (Nat × Option Nat) :=
  jsMatchRangeAux s.toList

/-- files.ts `parseRange`: on no match `[0, fileSize - 1]`; otherwise
`[start, Math.min(end, fileSize - 1)]` with a missing second capture meaning
`fileSize - 1`.  The start is returned unclamped. -/
def parseRange (range : String) (fileSize : Nat) : Nat × Nat :=
  match jsMatchRange range with
  | none => (0, fileSize - 1)
  | some (s, oe) =>
    let e := match oe with
      | some e => e
      | none => fileSize - 1
    (s, min e (fileSize - 1))

/-- The `Content-Range` header value built at files.ts line 836. -/
def mkContentRange (s e total : Nat) : String :=
  "bytes " ++ toString s ++ "-" ++ toString e ++ "/" ++ toString total

/-- The observable part of the stream range branch's response. -/
structure RangeResp where
  status : Nat
  contentRange : String
  body : List Nat
deriving DecidableEq, Repr

/-- The stream handler's range branch (files.ts lines 752-847) under the
assumption that every needed chunk download succeeds and yields the stored
bytes (the failure and repair paths are modelled separately below); the cache
lookup is identity-transparent and omitted. -/
def streamRangeResp (chunks : List StChunk) (fileSize : Nat) (rangeHeader : String) : RangeResp :=
  let se := parseRange rangeHeader fileSize
  { status := 206
    contentRange := mkContentRange se.1 se.2 fileSize
    body := rangeBody chunks se.1 se.2 }

/-! ## Catalog and chunk records (schema.sql, files.ts upload handlers)

Tables are lists of rows in insertion order.  The `bots` table is modelled as
already held in `last_health_check`-descending order, so the pool query's
`ORDER BY` is the identity and the query is a filter. -/

structure FileRow where
  file_id : String
  user_id : String
  file_name : String
  file_size : Nat
  file_hash : String
  chunk_count : Nat
  is_deleted : Bool
deriving DecidableEq, Repr

structure BotRow where
  bot_id : String
  user_id : String
  bot_token_enc : String
  channel_id : Option String
  is_active : Bool
  health_status : String
deriving DecidableEq, Repr

structure ChunkRow where
  chunk_id : String
  file_id : String
  chunk_index : Int
  chunk_size : Nat
  chunk_hash : String
  bot_id : String
  telegram_message_id : Int
  telegram_file_id : String
  channel_id : String
deriving DecidableEq, Repr

structure Store where
  files : List FileRow
  chunks : List ChunkRow
  bots : List BotRow
deriving DecidableEq, Repr

/-- The pool query used by upload/init and upload/chunk:
`WHERE user_id = ? AND is_active = 1 AND health_status = 'healthy'
ORDER BY last_health_check DESC` (see the ordering convention above). -/
def activeHealthyBots (bots : List BotRow) (userId : String) : List BotRow :=
  bots.filter (fun b => b.user_id == userId && b.is_active && b.health_status == "healthy")

/-- JS `bots.results[chunk_index % bots.results.length]` (files.ts line 189).
JS `%` is the truncated remainder (sign of the dividend, `Int.tmod`); a
negative result is a nonexistent array property and yields `undefined`
(`none`) — except that a remainder of `-0` canonicalizes to the property key
"0" and hits index 0, so negative multiples of the pool size select bot 0. -/
def jsSelect (pool : List BotRow) (i : Int) : Option BotRow :=
  let r := i.tmod pool.length
  if 0 ≤ i ∨ r = 0 then pool.get? r.toNat else none

/-- Backend selection step of upload/chunk (files.ts lines 185-192): an empty
pool was already rejected with 400 'No active bots found'; reading
`.channel_id` off an `undefined` selectedBot throws a TypeError which the
handler's catch turns into a 500. -/
def selectBackend (pool : List BotRow) (i : Int) : Except String BotRow :=
  if pool.isEmpty then .error "No active bots found"
  else
    match jsSelect pool i with
    | none => .error "TypeError"
    | some b => .ok b

/-- files.ts line 228: `chunk_id = ` the template literal
`chunk_<file_id>_<chunk_index>`. -/
def mkChunkId (fileId : String) (idx : Int) : String :=
  "chunk_" ++ fileId ++ "_" ++ toString idx

/-- `INSERT INTO chunks ...` (files.ts lines 231-247) against the constraints
of schema.sql lines 81-93: `chunk_id TEXT PRIMARY KEY` and
`UNIQUE(file_id, chunk_index)`.  `none` models the thrown constraint
violation. -/
def insertChunk (tbl : List ChunkRow) (r : ChunkRow) : Option (List ChunkRow) :=
  if tbl.any (fun x => x.chunk_id == r.chunk_id)
      || tbl.any (fun x => x.file_id == r.file_id && x.chunk_index == r.chunk_index) then
    none
  else some (tbl ++ [r])

inductive UploadChunkResult where
  | ok (message_id : Int) (telegram_file_id : String)
  | badRequest (msg : String)
  | notFound
  | serverError
deriving DecidableEq, Repr

/-- POST /api/files/upload/chunk (files.ts lines 151-272).  The successful
Telegram `sendDocument` result is passed in as `tgMsgId`/`tgFileId`; the
post-upload `getFile` verification (lines 214-225) is skipped by the handler
regardless of outcome and is omitted.  Every thrown error (undefined bot,
constraint violation) is caught at line 265 and returned as a 500. -/
def uploadChunk (st : Store) (userId fileId : String) (idx : Int) (data : List Nat)
    (hash : String) (tgMsgId : Int) (tgFileId : String) : UploadChunkResult × Store :=
  match st.files.find? (fun f => f.file_id == fileId && f.user_id == userId) with
  | none => (.notFound, st)
  | some f =>
    if (f.chunk_count : Int) ≤ idx then (.badRequest "Invalid chunk_index", st)
    else
      let pool := activeHealthyBots st.bots userId
      if pool.isEmpty then (.badRequest "No active bots found", st)
      else
        match jsSelect pool idx with
        | none => (.serverError, st)
        | some bot =>
          match bot.channel_id with
          | none => (.badRequest "Bot channel not configured", st)
          | some chan =>
            let row : ChunkRow :=
              ⟨mkChunkId fileId idx, fileId, idx, data.length, hash,
               bot.bot_id, tgMsgId, tgFileId, chan⟩
            match insertChunk st.chunks row with
            | none => (.serverError, st)
            | some tbl => (.ok tgMsgId tgFileId, { st with chunks := tbl })

inductive CompleteResult where
  | ok
  | notFound
  | incomplete (uploaded required : Nat)
deriving DecidableEq, Repr

/-- POST /api/files/upload/complete (files.ts lines 278-323): compares
`COUNT(*)` of the file's chunk rows with `chunk_count`; on equality only
`updated_at` is touched (not modelled), so the store is unchanged either
way. -/
def completeUpload (st : Store) (userId fileId : String) : CompleteResult :=
  match st.files.find? (fun f => f.file_id == fileId && f.user_id == userId) with
  | none => .notFound
  | some f =>
    let cnt := st.chunks.countP (fun c => c.file_id == fileId)
    if cnt ≠ f.chunk_count then .incomplete cnt f.chunk_count else .ok

inductive InitResult where
  | duplicate (file_id : String)
  | ok (file_id : String) (chunk_count : Nat) (assignments : List String)
  | noBots
deriving DecidableEq, Repr

/-- POST /api/files/upload/init (files.ts lines 26-145) with no folder_id
supplied (the folder branch is not on the dedup path).  The duplicate check
(lines 47-57) runs before everything else; a hit returns 409 with the
existing file_id and `duplicate: true` and creates nothing.  The fresh
`file_id` (Date.now/random at line 102) is passed in as `newFileId`. -/
def initUpload (st : Store) (userId fileName : String) (fileSize : Nat)
    (fileHash : String) (newFileId : String) : InitResult × Store :=
  match st.files.find? (fun f =>
      f.user_id == userId && f.file_hash == fileHash && f.is_deleted == false) with
  | some f => (.duplicate f.file_id, st)
  | none =>
    let cc := chunkCount fileSize CHUNK_SIZE
    let pool := activeHealthyBots st.bots userId
    if pool.isEmpty then (.noBots, st)
    else
      let row : FileRow := ⟨newFileId, userId, fileName, fileSize, fileHash, cc, false⟩
      let assignments :=
        (List.range cc).map (fun i => ((pool.get? (i % pool.length)).map (·.bot_id)).getD "")
      (.ok newFileId cc assignments, { st with files := st.files ++ [row] })

/-! ## Download path and reference repair (files.ts download handler,
src/unnamed/part_009 telegram service) -/

structure TgFile where
  file_id : String
  file_path : Option String
deriving DecidableEq, Repr

/-- The Telegram transport as oracle functions: `download token file_id`
models `downloadFile`, `fromMessage token channel message_id` models
`getFileFromMessage` (part_009 lines 276-303, which returns null on any
internal failure), `botOk token` models `getBotInfo` succeeding. -/
structure TgTransport where
  download : String → String → Option (List Nat)
  fromMessage : String → String → Int → Option TgFile
  botOk : String → Bool

inductive FetchErr where
  | emptyToken
  | noChannel (chunk_index : Int)
  | noMessageId (chunk_index : Int)
  | fetchFailed (chunk_index : Int)
deriving DecidableEq, Repr

/-- Per-chunk retrieval of the download handler (files.ts lines 554-660)
including the message-id repair fallback (lines 583-625).  Returns the
outcome, the chunks table (updated in place at lines 609-612 when the
fallback re-derives a fresh `telegram_file_id`), and the number of times the
fallback `getFileFromMessage` was invoked.  A `getBotInfo` failure throws
inside the same try as the primary `downloadFile` and therefore also falls
through to the fallback. -/
def fetchChunk (tr : TgTransport) (tbl : List ChunkRow) (fileId : String)
    (ch : ChunkRow) (bot : BotRow) : Except FetchErr (List Nat) × List ChunkRow × Nat :=
  if bot.bot_token_enc == "" then (.error .emptyToken, tbl, 0)
  else
    match (if tr.botOk bot.bot_token_enc then tr.download bot.bot_token_enc ch.telegram_file_id
           else none) with
    | some b => (.ok b, tbl, 0)
    | none =>
      match (if ch.channel_id == "" then bot.channel_id else some ch.channel_id) with
      | none => (.error (.noChannel ch.chunk_index), tbl, 0)
      | some channelId =>
        if ch.telegram_message_id == 0 then (.error (.noMessageId ch.chunk_index), tbl, 0)
        else
          match tr.fromMessage bot.bot_token_enc channelId ch.telegram_message_id with
          | some tf =>
            match tf.file_path with
            | some _ =>
              let tbl' := tbl.map (fun r =>
                if r.chunk_id == mkChunkId fileId ch.chunk_index then
                  { r with telegram_file_id := tf.file_id }
                else r)
              match tr.download bot.bot_token_enc tf.file_id with
              | some b => (.ok b, tbl', 1)
              | none => (.error (.fetchFailed ch.chunk_index), tbl', 1)
            | none => (.error (.fetchFailed ch.chunk_index), tbl, 1)
          | none => (.error (.fetchFailed ch.chunk_index), tbl, 1)

/-- Insertion step for the `ORDER BY chunk_index ASC` of the chunk query. -/
def insertByIdx (p : ChunkRow × BotRow) :
    List (ChunkRow × BotRow) → List (ChunkRow × BotRow)
  | [] => [p]
  | q :: rest =>
    if p.1.chunk_index ≤ q.1.chunk_index then p :: q :: rest else q :: insertByIdx p rest

def sortByIdx : List (ChunkRow × BotRow) → List (ChunkRow × BotRow)
  | [] => []
  | p :: rest => insertByIdx p (sortByIdx rest)

/-- The chunk query of the download and stream handlers (files.ts lines
519-535 and 718-734): `JOIN bots ON chunks.bot_id = bots.bot_id WHERE
chunks.file_id = ? AND bots.is_active = 1 AND bots.channel_id IS NOT NULL
ORDER BY chunk_index ASC`.  Rows whose bot is deactivated or channel-less
are silently dropped by the WHERE clause. -/
def availableChunks (st : Store) (fileId : String) : List (ChunkRow × BotRow) :=
  sortByIdx ((st.chunks.filter (fun c => c.file_id == fileId)).filterMap (fun c =>
    match st.bots.find? (fun b => b.bot_id == c.bot_id) with
    | some b => if b.is_active && b.channel_id.isSome then some (c, b) else none
    | none => none))

inductive DlResult where
  | ok (body : List Nat)
  | notFound
  | unavailable
  | noChunks
  | fetchError (e : FetchErr)
deriving DecidableEq, Repr

/-- The sequential chunk loop of the download handler (lines 553-661),
threading the chunks table through the in-place repair updates. -/
def downloadLoop (tr : TgTransport) (fileId : String) :
    List (ChunkRow × BotRow) → List ChunkRow → Except FetchErr (List (List Nat) × List ChunkRow)
  | [], tbl => .ok ([], tbl)
  | (c, b) :: rest, tbl =>
    match fetchChunk tr tbl fileId c b with
    | (.ok bytes, tbl', _) =>
      match downloadLoop tr fileId rest tbl' with
      | .ok (bufs, tbl'') => .ok (bytes :: bufs, tbl'')
      | .error e => .error e
    | (.error e, _, _) => .error e

/-- GET /api/files/:file_id/download (files.ts lines 496-689).
`unavailable` is the 503 'File chunks found but bot is inactive or channel
not configured', issued only when the filtered chunk query returns ZERO rows
while the file has chunk rows. -/
def downloadResp (tr : TgTransport) (st : Store) (userId fileId : String) : DlResult :=
  match st.files.find? (fun f =>
      f.file_id == fileId && f.user_id == userId && f.is_deleted == false) with
  | none => .notFound
  | some _ =>
    let avail := availableChunks st fileId
    if avail.isEmpty then
      if st.chunks.any (fun c => c.file_id == fileId) then .unavailable else .noChunks
    else
      match downloadLoop tr fileId avail st.chunks with
      | .ok (bufs, _) => .ok (assemble bufs)
      | .error e => .fetchError e

/-! ## Per-credential rate limiter (src/unnamed/part_009, lines 92-94 and
152-163)

`rateLimitMap` is a process-wide `Map<string, number>` from bot token to the
timestamp of that token's last call; `rateLimit` reads the entry (`|| 0`),
sleeps for the remainder of the 3000 ms window if needed, and then writes
`Date.now()` — i.e. the time at which the transport call actually proceeds.
Times are in milliseconds. -/

def RATE_LIMIT_MS : Nat := 3000

def rlGet (m : List (String × Nat)) (tok : String) : Nat :=
  match m.find? (fun p => p.1 == tok) with
  | some p => p.2
  | none => 0

/-- `Map.set`: replace in place, or append for a new key. -/
def rlSet (m : List (String × Nat)) (tok : String) (t : Nat) : List (String × Nat) :=
  if m.any (fun p => p.1 == tok) then
    m.map (fun p => if p.1 == tok then (tok, t) else p)
  else m ++ [(tok, t)]

/-- The time at which a `rateLimit(tok)` call entered at time `now` lets the
caller proceed: `lastCall + 3000` when inside the window, `now` otherwise.
JS computes a possibly negative `now - lastCall`; natural subtraction
truncates at 0 and yields the same branch and the same wake time. -/
def rlWake (m : List (String × Nat)) (tok : String) (now : Nat) : Nat :=
  if now - rlGet m tok < RATE_LIMIT_MS then rlGet m tok + RATE_LIMIT_MS else now

/-- One complete (uninterleaved) `rateLimit` call: the proceed time and the
map after the `rateLimitMap.set(botToken, Date.now())` that follows the
wait. -/
def rlStep (m : List (String × Nat)) (tok : String) (now : Nat) :
    Nat × List (String × Nat) :=
  (rlWake m tok now, rlSet m tok (rlWake m tok now))

/-- Two overlapping `rateLimit` invocations for the same credential, both of
which execute their read of `rateLimitMap` before either finishes its awaited
`setTimeout` and writes the map back — a possible interleaving because
`rateLimit` suspends between the read and the write and the map is written
only after the wait. -/
def rlOverlappedWakes (m : List (String × Nat)) (tok : String) (t1 t2 : Nat) : Nat × Nat :=
  (rlWake m tok t1, rlWake m tok t2)

/-! ## Helper lemmas -/

theorem chunkSlice_eq (P : List Nat) (C i : Nat) :
    chunkSlice P C i = (P.drop (i * C)).take C := by
  unfold chunkSlice
  rw [List.take_eq_take]
  simp only [List.length_drop]
  omega

theorem flatten_range_take (P : List Nat) (C : Nat) :
    ∀ n, ((List.range n).map (fun i => (P.drop (i * C)).take C)).flatten = P.take (n * C)
  | 0 => by simp
  | n + 1 => by
    rw [List.range_succ, List.map_append, List.flatten_append, flatten_range_take P C n]
    simp [Nat.succ_mul, List.take_add]

theorem chunkCount_mul_ge (len C : Nat) (hC : 0 < C) : len ≤ chunkCount len C * C := by
  unfold chunkCount
  have h1 := Nat.div_add_mod (len + C - 1) C
  have h2 := Nat.mod_lt (len + C - 1) hC
  rw [Nat.mul_comm]
  omega

theorem findNeeded_flatten (s e : Nat) :
    ∀ (chunks : List StChunk) (off : Nat),
      (∀ c ∈ chunks, c.size = c.bytes.length) →
      ((findNeeded chunks off s e).map rangeExtract).flatten
        = (((chunks.map StChunk.bytes).flatten).drop (s - off)).take (e + 1 - max s off)
  | [], off, _ => by simp [findNeeded]
  | c :: cs, off, h => by
    have hsz : c.size = c.bytes.length := h c (List.mem_cons_self c cs)
    have ih := findNeeded_flatten s e cs (off + c.size)
      (fun x hx => h x (List.mem_cons_of_mem c hx))
    simp only [findNeeded, List.map_append, List.flatten_append, List.map_cons,
      List.flatten_cons]
    rw [ih, List.drop_append_eq_append_drop, List.take_append_eq_append_take]
    congr 1
    · by_cases hcond : off + c.size > s ∧ off ≤ e
      · simp only [if_pos hcond, List.map_cons, List.map_nil, List.flatten_cons,
          List.flatten_nil, List.append_nil, rangeExtract]
        rw [List.take_eq_take]
        simp only [List.length_drop]
        obtain ⟨hc1, hc2⟩ := hcond
        omega
      · simp only [if_neg hcond, List.map_nil, List.flatten_nil]
        rcases Decidable.not_and_iff_or_not.mp hcond with hc | hc
        · push_neg at hc
          symm
          rw [List.take_eq_nil_iff]
          right
          exact List.drop_eq_nil_of_le (by omega)
        · push_neg at hc
          symm
          rw [List.take_eq_nil_iff]
          left
          omega
    · rw [List.length_drop]
      have e1 : s - off - c.bytes.length = s - (off + c.size) := by omega
      have e2 : e + 1 - max s off - (c.bytes.length - (s - off))
          = e + 1 - max s (off + c.size) := by omega
      rw [e1, e2]

theorem rangeBody_eq (chunks : List StChunk) (P : List Nat) (s e : Nat)
    (h : ∀ c ∈ chunks, c.size = c.bytes.length)
    (hP : (chunks.map StChunk.bytes).flatten = P) :
    rangeBody chunks s e = (P.drop s).take (e + 1 - s) := by
  unfold rangeBody
  rw [findNeeded_flatten s e chunks 0 h, hP]
  simp

/-! ## C2: chunk split / reassembly round-trip -/

/-- C2: splitting a payload `P` into consecutive `C`-byte chunks (the v1
upload loop) and concatenating all chunks in index order (the download
handler) returns exactly `P`; the number of chunks is `⌈len(P)/C⌉` and the
last chunk's length is `len(P) - C*(chunkCount - 1)`. -/
theorem chunk_roundtrip (P : List Nat) (C : Nat) (hC : 0 < C) :
    assemble (chunkSplit P C) = P
    ∧ (chunkSplit P C).length = P.length ⌈/⌉ C
    ∧ (0 < P.length →
        ((chunkSplit P C).getLastD []).length
          = P.length - C * ((chunkSplit P C).length - 1)) := by
  have hfun : chunkSlice P C = fun i => (P.drop (i * C)).take C :=
    funext fun i => chunkSlice_eq P C i
  have hlen : (chunkSplit P C).length = chunkCount P.length C := by
    simp [chunkSplit]
  refine ⟨?_, ?_, ?_⟩
  · unfold assemble chunkSplit
    rw [hfun, flatten_range_take]
    exact List.take_of_length_le (chunkCount_mul_ge P.length C hC)
  · rw [hlen]
    unfold chunkCount
    exact (Nat.ceilDiv_eq_add_pred_div _ _).symm
  · intro hP
    have hq : 0 < chunkCount P.length C := by
      unfold chunkCount
      exact Nat.div_pos (by omega) hC
    obtain ⟨q', hq'⟩ : ∃ q', chunkCount P.length C = q' + 1 :=
      ⟨chunkCount P.length C - 1, by omega⟩
    have hge := chunkCount_mul_ge P.length C hC
    rw [hq', Nat.succ_mul] at hge
    rw [hlen, hq']
    unfold chunkSplit
    rw [hq', List.range_succ, List.map_append]
    simp only [List.map_cons, List.map_nil]
    rw [List.getLastD_concat, chunkSlice_eq]
    simp only [List.length_take, List.length_drop, Nat.add_sub_cancel]
    rw [Nat.mul_comm C q']
    omega

theorem chunk_roundtrip_witness :
    assemble (chunkSplit [1, 2, 3, 4, 5] 2) = [1, 2, 3, 4, 5]
    ∧ (chunkSplit [1, 2, 3, 4, 5] 2).length = ([1, 2, 3, 4, 5] : List Nat).length ⌈/⌉ 2
    ∧ ((chunkSplit [1, 2, 3, 4, 5] 2).getLastD []).length
        = ([1, 2, 3, 4, 5] : List Nat).length - 2 * ((chunkSplit [1, 2, 3, 4, 5] 2).length - 1) :=
  ⟨(chunk_roundtrip [1, 2, 3, 4, 5] 2 (by decide)).1,
   (chunk_roundtrip [1, 2, 3, 4, 5] 2 (by decide)).2.1,
   (chunk_roundtrip [1, 2, 3, 4, 5] 2 (by decide)).2.2 (by decide)⟩

/-! ## C1: range read correctness -/

/-- C1: for a stored file whose ordered chunk sizes agree with the stored
bytes and sum to `len(P)`, and a Range header that parses to
`0 ≤ start ≤ end < len(P)`, the stream range branch selects the intersecting
chunks, slices them to local coordinates, concatenates in index order, and
returns exactly `P[start..end]` (end inclusive) — a body of length
`end - start + 1` with status 206 and `Content-Range: bytes start-end/total`. -/
theorem stream_range_correct (chunks : List StChunk) (P : List Nat) (hdr : String)
    (s e : Nat)
    (hsz : ∀ c ∈ chunks, c.size = c.bytes.length)
    (hP : (chunks.map StChunk.bytes).flatten = P)
    (hparse : parseRange hdr P.length = (s, e))
    (hse : s ≤ e) (he : e < P.length) :
    streamRangeResp chunks P.length hdr
      = ⟨206, mkContentRange s e P.length, (P.drop s).take (e + 1 - s)⟩
    ∧ (streamRangeResp chunks P.length hdr).body.length = e - s + 1 := by
  have hb := rangeBody_eq chunks P s e hsz hP
  have hresp : streamRangeResp chunks P.length hdr
      = ⟨206, mkContentRange s e P.length, (P.drop s).take (e + 1 - s)⟩ := by
    simp only [streamRangeResp, hparse, hb]
  refine ⟨hresp, ?_⟩
  rw [hresp]
  simp only [List.length_take, List.length_drop]
  omega

theorem stream_range_correct_witness :
    streamRangeResp [⟨2, [10, 20]⟩, ⟨2, [30, 40]⟩]
        ([10, 20, 30, 40] : List Nat).length "bytes=1-2"
      = ⟨206, mkContentRange 1 2 ([10, 20, 30, 40] : List Nat).length,
          (([10, 20, 30, 40] : List Nat).drop 1).take (2 + 1 - 1)⟩
    ∧ (streamRangeResp [⟨2, [10, 20]⟩, ⟨2, [30, 40]⟩]
        ([10, 20, 30, 40] : List Nat).length "bytes=1-2").body.length = 2 - 1 + 1 :=
  stream_range_correct [⟨2, [10, 20]⟩, ⟨2, [30, 40]⟩] [10, 20, 30, 40] "bytes=1-2" 1 2
    (by decide) (by decide) (by decide) (by decide) (by decide)

/-! ## C10: Range header parser -/

/-- C10: for a header matching `bytes=<digits>-<optional digits>` the parser
returns `[start, min(end, S-1)]` (a missing end meaning `S-1`); for every
non-matching header — including the HTTP suffix form `bytes=-500` — it
returns `[0, S-1]`, so the stream endpoint serves the whole file with status
206 and `Content-Range: bytes 0-(S-1)/S` instead of rejecting; the start is
never clamped to `S` (witness `bytes=100-` against `S = 10`). -/
theorem parseRange_spec :
    (∀ hdr S s e, jsMatchRange hdr = some (s, some e) →
        parseRange hdr S = (s, min e (S - 1)))
    ∧ (∀ hdr S s, jsMatchRange hdr = some (s, none) → parseRange hdr S = (s, S - 1))
    ∧ (∀ hdr S, jsMatchRange hdr = none → parseRange hdr S = (0, S - 1))
    ∧ jsMatchRange "bytes=-500" = none
    ∧ parseRange "bytes=100-" 10 = (100, 9)
    ∧ (∀ (chunks : List StChunk) (P : List Nat) (hdr : String),
        (∀ c ∈ chunks, c.size = c.bytes.length) →
        (chunks.map StChunk.bytes).flatten = P →
        0 < P.length →
        jsMatchRange hdr = none →
        streamRangeResp chunks P.length hdr
          = ⟨206, mkContentRange 0 (P.length - 1) P.length, P⟩) := by
  refine ⟨?_, ?_, ?_, by decide, by decide, ?_⟩
  · intro hdr S s e h
    simp [parseRange, h]
  · intro hdr S s h
    simp [parseRange, h]
  · intro hdr S h
    simp [parseRange, h]
  · intro chunks P hdr hsz hP hlen hm
    have hparse : parseRange hdr P.length = (0, P.length - 1) := by
      simp [parseRange, hm]
    have hb := rangeBody_eq chunks P 0 (P.length - 1) hsz hP
    have hfull : (P.drop 0).take (P.length - 1 + 1 - 0) = P := by
      have h1 : P.length - 1 + 1 - 0 = P.length := by omega
      rw [List.drop_zero, h1, List.take_length]
    simp only [streamRangeResp, hparse, hb, hfull]

theorem parseRange_spec_witness :
    parseRange "bytes=3-5" 100 = (3, min 5 (100 - 1))
    ∧ parseRange "bytes=7-" 10 = (7, 10 - 1)
    ∧ parseRange "xyz" 10 = (0, 10 - 1)
    ∧ streamRangeResp [⟨1, [5]⟩] ([5] : List Nat).length "nope"
        = ⟨206, mkContentRange 0 (([5] : List Nat).length - 1) ([5] : List Nat).length, [5]⟩ :=
  ⟨parseRange_spec.1 "bytes=3-5" 100 3 5 (by decide),
   parseRange_spec.2.1 "bytes=7-" 10 7 (by decide),
   parseRange_spec.2.2.1 "xyz" 10 (by decide),
   parseRange_spec.2.2.2.2.2 [⟨1, [5]⟩] [5] "nope" (by decide) (by decide) (by decide)
     (by decide)⟩

/-! ## C8: deterministic backend selection -/

/-- C8: backend selection is a pure function of the pool and the chunk
index — with a fixed non-empty pool of size N it returns `pool[i mod N]`
(hence the same backend on every repeated call), and with an empty pool it
fails with the 400 'No active bots found' (NoBackendAvailable). -/
theorem selectBackend_spec (pool : List BotRow) (i : Nat) :
    selectBackend pool (i : Int)
      = match pool.get? (i % pool.length) with
        | some b => .ok b
        | none => .error "No active bots found" := by
  unfold selectBackend jsSelect
  rcases List.eq_nil_or_concat pool with hp | ⟨l, b, hp⟩
  · subst hp
    simp
  · have hne : pool ≠ [] := by
      rw [hp]
      exact (List.concat_ne_nil b l)
    have hlt : i % pool.length < pool.length :=
      Nat.mod_lt i (List.length_pos.mpr hne)
    have htm : (i : Int).tmod pool.length = ((i % pool.length : Nat) : Int) :=
      (Int.ofNat_tmod i pool.length).symm
    have hie : pool.isEmpty = false := by
      simp [List.isEmpty_iff, hne]
    simp only [hie, Bool.false_eq_true, if_false, htm, Int.toNat_ofNat,
      if_pos (Or.inl (Int.ofNat_nonneg i))]
    rw [List.get?_eq_get hlt]

/-! ## C6: dedup idempotence of upload/init -/

theorem find?_append_none {α : Type} {p : α → Bool} {l l' : List α}
    (h : l.find? p = none) : (l ++ l').find? p = l'.find? p := by
  rw [List.find?_append, h, Option.none_or]

/-- C6: if an `upload/init` call for `(owner, content_hash)` created a file
row (returned non-duplicate success), then a second `upload/init` for the
same owner and hash — with no deletion in between — returns `duplicate=true`
with the existing `file_id` and leaves the store unchanged: no new file row
and no new chunk rows. -/
theorem initUpload_dedup (st : Store) (u nm nm2 : String) (sz sz2 : Nat)
    (h fid fid2 : String) (cc : Nat) (asg : List String) (st1 : Store)
    (hfirst : initUpload st u nm sz h fid = (.ok fid cc asg, st1)) :
    initUpload st1 u nm2 sz2 h fid2 = (.duplicate fid, st1) := by
  unfold initUpload at hfirst ⊢
  cases hdup : st.files.find?
      (fun f => f.user_id == u && f.file_hash == h && f.is_deleted == false) with
  | some f =>
    rw [hdup] at hfirst
    simp at hfirst
  | none =>
    rw [hdup] at hfirst
    by_cases hpool : (activeHealthyBots st.bots u).isEmpty
    · simp only [hpool, if_true] at hfirst
      simp at hfirst
    · simp only [hpool, Bool.false_eq_true, if_false, Prod.mk.injEq] at hfirst
      obtain ⟨-, hst⟩ := hfirst
      rw [← hst]
      simp only [find?_append_none hdup, List.find?_cons]
      simp

/-! ## C4: chunk re-upload is not idempotent -/

/-- C4 counterexample: after a successful chunk upload for
`(file "f", index 0)`, re-running the same upload does NOT succeed and does
NOT overwrite — the plain `INSERT INTO chunks` violates the `chunk_id`
primary key and `UNIQUE(file_id, chunk_index)` constraints, the D1 driver
throws, and the handler's catch returns a 500. -/
theorem putChunk_rerun_fails_cx :
    uploadChunk ⟨[⟨"f", "u", "n", 5, "h", 2, false⟩], [],
        [⟨"b", "u", "tok", some "c", true, "healthy"⟩]⟩ "u" "f" 0 [1, 2] "ch" 10 "tg0"
      = (.ok 10 "tg0",
         ⟨[⟨"f", "u", "n", 5, "h", 2, false⟩],
          [⟨"chunk_f_0", "f", 0, 2, "ch", "b", 10, "tg0", "c"⟩],
          [⟨"b", "u", "tok", some "c", true, "healthy"⟩]⟩)
    ∧ uploadChunk ⟨[⟨"f", "u", "n", 5, "h", 2, false⟩],
          [⟨"chunk_f_0", "f", 0, 2, "ch", "b", 10, "tg0", "c"⟩],
          [⟨"b", "u", "tok", some "c", true, "healthy"⟩]⟩ "u" "f" 0 [1, 2] "ch" 11 "tg1"
      = (.serverError,
         ⟨[⟨"f", "u", "n", 5, "h", 2, false⟩],
          [⟨"chunk_f_0", "f", 0, 2, "ch", "b", 10, "tg0", "c"⟩],
          [⟨"b", "u", "tok", some "c", true, "healthy"⟩]⟩) := by
  decide

/-! ## C5: completion does not guarantee the contiguous index range -/

/-- C5 (code-bug exhibit): with one healthy bot and a file of
`chunk_count = 1`, uploading chunk index `-1` is ACCEPTED — the
`chunk_index >= chunk_count` guard does not reject negatives, and JS
`-1 % 1` is `-0`, whose property key is "0", so
`bots.results[-1 % 1]` silently selects bot 0 — and `upload/complete` then
succeeds because `COUNT(*) = 1 = chunk_count`, although the stored index set
is `{-1}`, not the contiguous range `[0, 1)` (the schema itself documents
`chunk_index -- 0, 1, 2, ...`). -/
theorem complete_negative_index_cx :
    uploadChunk ⟨[⟨"f", "u", "n", 5, "h", 1, false⟩], [],
        [⟨"b", "u", "tok", some "c", true, "healthy"⟩]⟩ "u" "f" (-1) [9] "ch" 10 "tg0"
      = (.ok 10 "tg0",
         ⟨[⟨"f", "u", "n", 5, "h", 1, false⟩],
          [⟨"chunk_f_-1", "f", -1, 1, "ch", "b", 10, "tg0", "c"⟩],
          [⟨"b", "u", "tok", some "c", true, "healthy"⟩]⟩)
    ∧ completeUpload ⟨[⟨"f", "u", "n", 5, "h", 1, false⟩],
          [⟨"chunk_f_-1", "f", -1, 1, "ch", "b", 10, "tg0", "c"⟩],
          [⟨"b", "u", "tok", some "c", true, "healthy"⟩]⟩ "u" "f" = .ok
    ∧ ([⟨"chunk_f_-1", "f", -1, 1, "ch", "b", 10, "tg0", "c"⟩] : List ChunkRow).map
          (fun r => r.chunk_index) ≠ [0] := by
  decide

/-! ## C3: reads with a deactivated backend skip the chunk instead of failing -/

/-- C3 (code-bug exhibit): a 3-chunk file whose middle chunk lives on a
deactivated bot.  The chunk query's WHERE clause silently drops that row,
the emptiness check sees two remaining rows (503 fires only when ZERO rows
remain), and the download returns 200 with chunks 0 and 2 concatenated —
a corrupted byte stream — instead of failing with ChunksUnavailable. -/
theorem download_inactive_bot_concats :
    downloadResp
        ⟨fun _ f => if f = "t0" then some [1]
                    else if f = "t1" then some [2]
                    else if f = "t2" then some [3] else none,
         fun _ _ _ => none,
         fun _ => true⟩
        ⟨[⟨"f", "u", "n", 3, "h", 3, false⟩],
         [⟨"chunk_f_0", "f", 0, 1, "h0", "b0", 1, "t0", "c0"⟩,
          ⟨"chunk_f_1", "f", 1, 1, "h1", "b1", 2, "t1", "c1"⟩,
          ⟨"chunk_f_2", "f", 2, 1, "h2", "b2", 3, "t2", "c2"⟩],
         [⟨"b0", "u", "tok0", some "c0", true, "healthy"⟩,
          ⟨"b1", "u", "tok1", some "c1", false, "healthy"⟩,
          ⟨"b2", "u", "tok2", some "c2", true, "healthy"⟩]⟩ "u" "f"
      = .ok [1, 3]
    ∧ DlResult.ok [1, 3] ≠ DlResult.unavailable
    ∧ ([1, 3] : List Nat) ≠ [1, 2, 3] := by
  decide

/-- C4 amended: re-running upload/chunk for a `(file_id, chunk_index)` whose
upload already succeeded fails with a 500 (unique-constraint violation on
the plain INSERT) and leaves the store unchanged — the table still holds
exactly one record for that `(file_id, chunk_index)`. -/
theorem putChunk_rerun_unique (st st1 : Store) (u fid : String) (idx : Int)
    (d d2 : List Nat) (h h2 : String) (m m2 : Int) (tf tf2 : String)
    (hfirst : uploadChunk st u fid idx d h m tf = (.ok m tf, st1)) :
    uploadChunk st1 u fid idx d2 h2 m2 tf2 = (.serverError, st1)
    ∧ st1.chunks.countP
        (fun r => r.file_id == fid && r.chunk_index == idx) = 1 := by
  unfold uploadChunk at hfirst
  cases hf : st.files.find? (fun f => f.file_id == fid && f.user_id == u) with
  | none =>
    simp only [hf] at hfirst
    simp at hfirst
  | some f =>
    simp only [hf] at hfirst
    by_cases hidx : (f.chunk_count : Int) ≤ idx
    · rw [if_pos hidx] at hfirst
      simp at hfirst
    · rw [if_neg hidx] at hfirst
      by_cases hpool : (activeHealthyBots st.bots u).isEmpty
      · simp only [hpool, if_true] at hfirst
        simp at hfirst
      · simp only [hpool, Bool.false_eq_true, if_false] at hfirst
        cases hsel : jsSelect (activeHealthyBots st.bots u) idx with
        | none =>
          simp only [hsel] at hfirst
          simp at hfirst
        | some bot =>
          simp only [hsel] at hfirst
          cases hchan : bot.channel_id with
          | none =>
            simp only [hchan] at hfirst
            simp at hfirst
          | some chan =>
            simp only [hchan] at hfirst
            cases hins : insertChunk st.chunks
                ⟨mkChunkId fid idx, fid, idx, d.length, h, bot.bot_id, m, tf, chan⟩ with
            | none =>
              simp only [hins] at hfirst
              simp at hfirst
            | some tbl =>
              simp only [hins] at hfirst
              simp only [Prod.mk.injEq] at hfirst
              obtain ⟨-, hst⟩ := hfirst
              unfold insertChunk at hins
              by_cases hdup : (st.chunks.any (fun x =>
                    x.chunk_id == mkChunkId fid idx)
                  || st.chunks.any (fun x => x.file_id == fid && x.chunk_index == idx))
              · simp only [hdup, if_true] at hins
                simp at hins
              · simp only [hdup, Bool.false_eq_true, if_false, Option.some.injEq] at hins
                simp only [Bool.or_eq_true, not_or] at hdup
                obtain ⟨hdup1, hdup2⟩ := hdup
                have hfiles : st1.files = st.files := by rw [← hst]
                have hbots : st1.bots = st.bots := by rw [← hst]
                have hchunks : st1.chunks = st.chunks
                    ++ [⟨mkChunkId fid idx, fid, idx, d.length, h, bot.bot_id, m, tf, chan⟩] := by
                  rw [← hst, ← hins]
                constructor
                · unfold uploadChunk
                  rw [hfiles]
                  simp only [hf]
                  rw [if_neg hidx]
                  simp only [hbots, hpool, Bool.false_eq_true, if_false, hsel, hchan]
                  have hany : st1.chunks.any
                      (fun x => x.chunk_id == mkChunkId fid idx) = true := by
                    rw [hchunks, List.any_append]
                    simp
                  unfold insertChunk
                  rw [hany]
                  simp only [Bool.true_or, if_true]
                · rw [hchunks, List.countP_append]
                  have hz : st.chunks.countP
                      (fun r => r.file_id == fid && r.chunk_index == idx) = 0 := by
                    rw [List.countP_eq_zero]
                    intro a ha hpa
                    refine absurd ?_ hdup2
                    rw [List.any_eq_true]
                    exact ⟨a, ha, hpa⟩
                  rw [hz]
                  simp

theorem putChunk_rerun_unique_witness :
    uploadChunk ⟨[⟨"g", "u", "n", 5, "h", 2, false⟩],
        [⟨"chunk_g_0", "g", 0, 2, "ch", "b", 10, "tg0", "c"⟩],
        [⟨"b", "u", "tok", some "c", true, "healthy"⟩]⟩ "u" "g" 0 [7] "h2" 11 "tg1"
      = (.serverError,
         ⟨[⟨"g", "u", "n", 5, "h", 2, false⟩],
          [⟨"chunk_g_0", "g", 0, 2, "ch", "b", 10, "tg0", "c"⟩],
          [⟨"b", "u", "tok", some "c", true, "healthy"⟩]⟩)
    ∧ (⟨[⟨"g", "u", "n", 5, "h", 2, false⟩],
          [⟨"chunk_g_0", "g", 0, 2, "ch", "b", 10, "tg0", "c"⟩],
          [⟨"b", "u", "tok", some "c", true, "healthy"⟩]⟩ : Store).chunks.countP
        (fun r => r.file_id == "g" && r.chunk_index == 0) = 1 :=
  putChunk_rerun_unique
    ⟨[⟨"g", "u", "n", 5, "h", 2, false⟩], [],
     [⟨"b", "u", "tok", some "c", true, "healthy"⟩]⟩
    ⟨[⟨"g", "u", "n", 5, "h", 2, false⟩],
     [⟨"chunk_g_0", "g", 0, 2, "ch", "b", 10, "tg0", "c"⟩],
     [⟨"b", "u", "tok", some "c", true, "healthy"⟩]⟩
    "u" "g" 0 [1, 2] [7] "ch" "h2" 10 11 "tg0" "tg1" (by decide)

theorem initUpload_dedup_witness :
    initUpload ⟨[⟨"f1", "u", "n", 5, "h", 1, false⟩], [],
        [⟨"b", "u", "tok", some "c", true, "healthy"⟩]⟩ "u" "n2" 7 "h" "f2"
      = (.duplicate "f1",
         ⟨[⟨"f1", "u", "n", 5, "h", 1, false⟩], [],
          [⟨"b", "u", "tok", some "c", true, "healthy"⟩]⟩) :=
  initUpload_dedup ⟨[], [], [⟨"b", "u", "tok", some "c", true, "healthy"⟩]⟩
    "u" "n" "n2" 5 7 "h" "f1" "f2" 1 ["b"]
    ⟨[⟨"f1", "u", "n", 5, "h", 1, false⟩], [],
     [⟨"b", "u", "tok", some "c", true, "healthy"⟩]⟩ (by decide)

/-! ## C7: reference-repair fallback -/

/-- C7: when the stored `telegram_file_id` fails to fetch, the read path
invokes `getFileFromMessage` exactly once, persists the re-derived
`telegram_file_id` onto the existing chunk row in place, retries the fetch
once, and returns the bytes the transport yields for the fresh reference;
when the repair itself fails the chunk read fails (ChunkFetchFailed with the
chunk index) with no further retry. -/
theorem repair_fallback_once (tr : TgTransport) (tbl : List ChunkRow) (fid : String)
    (ch : ChunkRow) (bot : BotRow)
    (htok : ¬ bot.bot_token_enc = "")
    (hbot : tr.botOk bot.bot_token_enc = true)
    (hfail : tr.download bot.bot_token_enc ch.telegram_file_id = none)
    (hchan : ¬ ch.channel_id = "")
    (hmsg : ¬ ch.telegram_message_id = 0) :
    (∀ tf bytes,
        tr.fromMessage bot.bot_token_enc ch.channel_id ch.telegram_message_id = some tf →
        tf.file_path.isSome = true →
        tr.download bot.bot_token_enc tf.file_id = some bytes →
        fetchChunk tr tbl fid ch bot
          = (.ok bytes,
             tbl.map (fun r =>
               if r.chunk_id == mkChunkId fid ch.chunk_index then
                 { r with telegram_file_id := tf.file_id }
               else r),
             1))
    ∧ (tr.fromMessage bot.bot_token_enc ch.channel_id ch.telegram_message_id = none →
        fetchChunk tr tbl fid ch bot = (.error (.fetchFailed ch.chunk_index), tbl, 1)) := by
  have htok' : (bot.bot_token_enc == "") = false := by
    simp [htok]
  have hchan' : (ch.channel_id == "") = false := by
    simp [hchan]
  have hmsg' : (ch.telegram_message_id == 0) = false := by
    simp [hmsg]
  constructor
  · intro tf bytes hfm hfp hnew
    obtain ⟨p, hp⟩ := Option.isSome_iff_exists.mp hfp
    unfold fetchChunk
    simp only [htok', Bool.false_eq_true, if_false, hbot, if_true, hfail, hchan',
      hmsg', hfm, hp, hnew]
  · intro hfm
    unfold fetchChunk
    simp only [htok', Bool.false_eq_true, if_false, hbot, if_true, hfail, hchan',
      hmsg', hfm]

theorem repair_fallback_once_witness :
    fetchChunk
        ⟨fun _ f => if f = "fresh" then some [7] else none,
         fun _ _ _ => some ⟨"fresh", some "p"⟩,
         fun _ => true⟩
        [⟨"chunk_f_0", "f", 0, 1, "h", "b", 5, "stale", "c"⟩] "f"
        ⟨"chunk_f_0", "f", 0, 1, "h", "b", 5, "stale", "c"⟩
        ⟨"b", "u", "tok", some "c", true, "healthy"⟩
      = (.ok [7],
         [⟨"chunk_f_0", "f", 0, 1, "h", "b", 5, "stale", "c"⟩].map (fun r =>
           if r.chunk_id == mkChunkId "f" (0 : Int) then
             { r with telegram_file_id := "fresh" }
           else r),
         1) :=
  (repair_fallback_once
      ⟨fun _ f => if f = "fresh" then some [7] else none,
       fun _ _ _ => some ⟨"fresh", some "p"⟩,
       fun _ => true⟩
      [⟨"chunk_f_0", "f", 0, 1, "h", "b", 5, "stale", "c"⟩] "f"
      ⟨"chunk_f_0", "f", 0, 1, "h", "b", 5, "stale", "c"⟩
      ⟨"b", "u", "tok", some "c", true, "healthy"⟩
      (by decide) (by rfl) (by rfl) (by decide) (by decide)).1
    ⟨"fresh", some "p"⟩ [7] (by rfl) (by rfl) (by rfl)

/-! ## C9: per-credential throttle -/

theorem any_false_find?_none {α : Type} (p : α → Bool) (l : List α)
    (h : l.any p = false) : l.find? p = none := by
  induction l with
  | nil => rfl
  | cons a t ih =>
    simp only [List.any_cons, Bool.or_eq_false_iff] at h
    simp only [List.find?_cons, h.1]
    exact ih h.2

theorem find?_map_replace (m : List (String × Nat)) (tok : String) (t : Nat)
    (h : m.any (fun p => p.1 == tok) = true) :
    (m.map (fun p => if p.1 == tok then (tok, t) else p)).find? (fun p => p.1 == tok)
      = some (tok, t) := by
  induction m with
  | nil => simp at h
  | cons q rest ih =>
    by_cases hq : (q.1 == tok) = true
    · have hq1 : q.1 = tok := by simpa using hq
      simp [List.map_cons, List.find?_cons, hq1]
    · rw [Bool.not_eq_true] at hq
      simp only [List.any_cons, hq, Bool.false_or] at h
      simp only [List.map_cons, hq, Bool.false_eq_true, if_false, List.find?_cons]
      exact ih h

theorem find?_map_replace_other (m : List (String × Nat)) (tok tok' : String) (t : Nat)
    (h : ¬ tok' = tok) :
    (m.map (fun p => if p.1 == tok then (tok, t) else p)).find? (fun p => p.1 == tok')
      = m.find? (fun p => p.1 == tok') := by
  induction m with
  | nil => simp
  | cons q rest ih =>
    by_cases hq : (q.1 == tok) = true
    · have hq1 : q.1 = tok := by simpa using hq
      have hq' : (q.1 == tok') = false := by
        rw [beq_eq_false_iff_ne, hq1]
        exact fun hc => h hc.symm
      have ht' : ((tok, t).1 == tok') = false := by
        rw [beq_eq_false_iff_ne]
        exact fun hc => h hc.symm
      simp only [List.map_cons, hq, if_true, List.find?_cons, ht', hq']
      exact ih
    · simp only [List.map_cons, hq, Bool.false_eq_true, if_false, List.find?_cons]
      cases hq2 : (q.1 == tok') with
      | true => rfl
      | false => exact ih

theorem rlGet_set_same (m : List (String × Nat)) (tok : String) (t : Nat) :
    rlGet (rlSet m tok t) tok = t := by
  unfold rlSet rlGet
  cases hmem : m.any (fun p => p.1 == tok) with
  | true =>
    rw [if_pos rfl] at *
    rw [find?_map_replace m tok t hmem]
  | false =>
    simp only [Bool.false_eq_true, if_false]
    rw [find?_append_none (any_false_find?_none _ _ hmem)]
    simp [List.find?_cons]

theorem rlGet_set_other (m : List (String × Nat)) (tok tok' : String) (t : Nat)
    (h : ¬ tok' = tok) :
    rlGet (rlSet m tok t) tok' = rlGet m tok' := by
  unfold rlSet rlGet
  cases hmem : m.any (fun p => p.1 == tok) with
  | true =>
    rw [if_pos rfl] at *
    rw [find?_map_replace_other m tok tok' t h]
  | false =>
    simp only [Bool.false_eq_true, if_false]
    rw [List.find?_append]
    have hsing : ([(tok, t)].find? (fun p => p.1 == tok')) = none := by
      have ht' : ((tok, t).1 == tok') = false := by
        rw [beq_eq_false_iff_ne]
        exact fun hc => h hc.symm
      simp only [List.find?_cons, ht']
      rfl
    rw [hsing, Option.or_none]

/-- C9 amended: when `rateLimit` invocations for one credential are
serialized (each completes its map write before the next reads), any two
consecutive transport calls with that credential proceed at least
`RATE_LIMIT_MS = 3000` ms apart — whatever the arrival times — and a call
with one credential neither reads nor modifies the state of any other
credential, so calls with different credentials do not delay each other. -/
theorem rateLimit_seq_spacing (m : List (String × Nat)) (tok : String) (now1 now2 : Nat) :
    (rlStep m tok now1).1 + RATE_LIMIT_MS ≤ (rlStep (rlStep m tok now1).2 tok now2).1
    ∧ (∀ tok', ¬ tok' = tok → rlGet (rlStep m tok now1).2 tok' = rlGet m tok') := by
  constructor
  · show rlWake m tok now1 + RATE_LIMIT_MS
        ≤ rlWake (rlSet m tok (rlWake m tok now1)) tok now2
    have hg : rlGet (rlSet m tok (rlWake m tok now1)) tok = rlWake m tok now1 :=
      rlGet_set_same m tok (rlWake m tok now1)
    generalize hw : rlWake m tok now1 = w at hg ⊢
    unfold rlWake
    rw [hg]
    have hR : RATE_LIMIT_MS = 3000 := rfl
    by_cases hc : now2 - w < RATE_LIMIT_MS
    · rw [if_pos hc]
    · rw [if_neg hc]
      omega
  · intro tok' h
    exact rlGet_set_other m tok tok' (rlWake m tok now1) h

theorem rateLimit_seq_spacing_witness :
    (rlStep [] "a" 0).1 + RATE_LIMIT_MS ≤ (rlStep (rlStep [] "a" 0).2 "a" 1).1
    ∧ rlGet (rlStep [] "a" 0).2 "b" = rlGet [] "b" :=
  ⟨(rateLimit_seq_spacing [] "a" 0 1).1,
   (rateLimit_seq_spacing [] "a" 0 1).2 "b" (by decide)⟩

/-- C9 counterexample: the claim as stated fails for overlapping calls.  Two
`rateLimit` invocations for the same credential that both read the map
before either writes it back (possible: the write happens only after the
awaited `setTimeout`) compute wake times 3000 and 3000 from arrival times 0
and 1 — two consecutive transport calls with the same credential separated
by 0 ms < 3000 ms. -/
theorem rateLimit_overlap_cx :
    (rlOverlappedWakes [] "tok" 0 1).1 = 3000
    ∧ (rlOverlappedWakes [] "tok" 0 1).2 = 3000
    ∧ ¬ ((rlOverlappedWakes [] "tok" 0 1).1 + RATE_LIMIT_MS
          ≤ (rlOverlappedWakes [] "tok" 0 1).2) := by
  decide
